import Mathlib

/-!
Shallow embedding of the service worker (`sw.js`-style file of this repository):
cache-storage data model, lifecycle handlers (install / activate), the
network-with-timeout helper `fromNetwork`, the runtime-cache trimmer
`trimCache`, and the fetch-event router with its four strategies
(network-first documents, stale-while-revalidate styles/scripts,
cache-first images/fonts, cache-then-network default).

Modelling conventions:
- A `Response` is an opaque value identified by a natural number; `clone`
  yields an equal value (a clone has the same content as the original).
- A cache partition is an insertion-ordered association list from URL to
  response, matching the Cache API: `put` removes any entry for the key and
  appends the new pair at the end, `keys` iterates in that order, and
  `caches.match` searches partitions in their creation order.
- The network is a function from URL to `Option (Response × Nat)`:
  `none` is a failed fetch, `some (r, t)` is a response `r` arriving after
  `t` milliseconds (the arrival time only matters to the timed helper).
- Asynchronous fire-and-forget work (background puts, trims, background
  revalidation) is accounted for in the resulting cache-storage state: the
  state recorded in a `FetchResult` is the state after all tasks spawned by
  the handler have settled, and the served result is computed exactly as the
  source computes it, independent of that background work.
-/

namespace SW

/-- A URL, split into its origin and its path (the parts the worker
inspects). -/
structure Url where
  origin : String
  path : String
deriving DecidableEq, Repr

/-- An opaque HTTP response body, identified by a number. -/
structure Response where
  id : Nat
deriving DecidableEq, Repr

/-- `response.clone()`: a clone carries the same content. -/
def Response.clone (r : Response) : Response := r

/-- The fields of a fetch-event request that the worker inspects. -/
structure Request where
  method : String
  url : Url
  mode : String
  destination : String
deriving DecidableEq, Repr

/-- One cache partition: an insertion-ordered list of URL/response entries. -/
abbrev Cache := List (Url × Response)

/-- `cache.put(req, res)`: remove any entry matching the key, append the new
entry at the end (per the Cache API batch operation). -/
def Cache.put (c : Cache) (k : Url) (v : Response) : Cache :=
  c.filter (fun e => !decide (e.1 = k)) ++ [(k, v)]

/-- `cache.match(req)`: the first entry whose key matches, if any. -/
def Cache.matchReq (c : Cache) (k : Url) : Option Response :=
  (c.find? (fun e => decide (e.1 = k))).map Prod.snd

/-- `cache.keys()`: the keys in iteration (= insertion) order. -/
def Cache.keysList (c : Cache) : List Url :=
  c.map Prod.fst

/-- `cache.delete(req)`: remove the entries matching the key. -/
def Cache.deleteReq (c : Cache) (k : Url) : Cache :=
  c.filter (fun e => !decide (e.1 = k))

/-- The cache storage: named partitions in creation order. -/
abbrev CacheStorage := List (String × Cache)

/-- `caches.open(name)`: create the named partition (empty, at the end) if
it does not exist yet. -/
def CacheStorage.openPart (s : CacheStorage) (name : String) : CacheStorage :=
  if s.any (fun e => decide (e.1 = name)) then s else s ++ [(name, [])]

/-- The contents of the named partition (empty if absent). -/
def CacheStorage.get (s : CacheStorage) (name : String) : Cache :=
  ((s.find? (fun e => decide (e.1 = name))).map Prod.snd).getD []

/-- Replace the contents of the named partition. -/
def CacheStorage.set (s : CacheStorage) (name : String) (c : Cache) : CacheStorage :=
  s.map (fun e => if e.1 = name then (e.1, c) else e)

/-- `caches.keys()`: the partition names in creation order. -/
def CacheStorage.names (s : CacheStorage) : List String :=
  s.map Prod.fst

/-- `caches.delete(name)`: drop the named partition. -/
def CacheStorage.deletePart (s : CacheStorage) (name : String) : CacheStorage :=
  s.filter (fun e => !decide (e.1 = name))

/-- `caches.match(req)`: search every partition in creation order, return
the first match. -/
def CacheStorage.matchAll (s : CacheStorage) (k : Url) : Option Response :=
  s.findSome? (fun e => Cache.matchReq e.2 k)

/-! Constants of the worker. -/

def VERSION : String := "v1"

def CORE_CACHE : String := "core-" ++ VERSION

def RUNTIME_CACHE : String := "runtime-" ++ VERSION

/-- Limit for runtime cache entries (soft LRU). -/
def MAX_RUNTIME_ENTRIES : Nat := 120

/-- Core files to cache on install. -/
def CORE_ASSETS : List String :=
  ["/",
   "/index.html",
   "/about.html",
   "/services.html",
   "/gallery.html",
   "/contact.html",
   "/css/style.css",
   "/css/responsive.css",
   "/js/main.js",
   "/js/resource-prioritizer.js",
   "/js/image-optimizer.js",
   "/js/boost-performance.js",
   "/images/Updated.png",
   "/videos/test.mp4"]

/-- Resolve a core-asset path against the worker's origin. -/
def resolveUrl (origin path : String) : Url :=
  { origin := origin, path := path }

/-- The network: `none` is a failed fetch, `some (r, t)` a response arriving
after `t` milliseconds. -/
abbrev Net := Url → Option (Response × Nat)

/-- `trimCache(cacheName, maxEntries)`: open the partition, read its keys,
and if the count exceeds the bound, delete the oldest `count - max` keys. -/
def trimCache (s : CacheStorage) (cacheName : String) (maxEntries : Nat) : CacheStorage :=
  let s1 := s.openPart cacheName
  let c := s1.get cacheName
  let keys := c.keysList
  if keys.length > maxEntries then
    let toDelete := keys.take (keys.length - maxEntries)
    s1.set cacheName (toDelete.foldl (fun acc k => acc.deleteReq k) c)
  else s1

/-- `cache.addAll`-style fetching: fetch every URL; fail if any single fetch
fails, otherwise return all responses in order (nothing is stored on
failure — the batch operation is atomic). -/
def fetchAll (net : Net) (urls : List Url) : Option (List Response) :=
  match urls with
  | [] => Option.some []
  | u :: rest =>
    match net u, fetchAll net rest with
    | Option.some (r, _), Option.some rs => Option.some (r :: rs)
    | _, _ => Option.none

/-- The install handler: open the core partition (creating it), then
`addAll(CORE_ASSETS)`; the boolean is whether the install attempt succeeded
(the `waitUntil` promise resolved). -/
def install (origin : String) (s : CacheStorage) (net : Net) : Bool × CacheStorage :=
  let s1 := s.openPart CORE_CACHE
  match fetchAll net (CORE_ASSETS.map (resolveUrl origin)) with
  | Option.some rs =>
      (true,
       s1.set CORE_CACHE
         (((CORE_ASSETS.map (resolveUrl origin)).zip rs).foldl
           (fun c e => c.put e.1 e.2) (s1.get CORE_CACHE)))
  | Option.none => (false, s1)

/-- The activate handler's cache work: enumerate all partition names and
delete every one that is neither the core nor the runtime partition.
(Enabling navigation preload and claiming clients touch no cache state.) -/
def activate (s : CacheStorage) : CacheStorage :=
  let stale := s.names.filter
    (fun k => !decide (k = CORE_CACHE ∨ k = RUNTIME_CACHE))
  stale.foldl (fun acc k => acc.deletePart k) s

/-- `fromNetwork(request, timeout)`: race the fetch against a rejection
timer; the result is the response only when it arrives before the timer
fires, otherwise the promise rejects. -/
def fromNetwork (net : Net) (u : Url) (timeout : Nat) : Option Response :=
  match net u with
  | Option.some (r, t) => if t < timeout then Option.some r else Option.none
  | Option.none => Option.none

/-- The state of `event.preloadResponse` for a navigation:
absent/resolving-undefined, resolving with a response, or rejecting. -/
inductive Preload where
  | noPreload
  | withResponse (r : Response)
  | rejecting
deriving DecidableEq, Repr

/-- What the promise passed to `respondWith` settles to. -/
inductive HandlerResult where
  | response (r : Response)
  | noResponse
  | rejected
deriving DecidableEq, Repr

/-- The observable outcome of one intercepted fetch: the settled result of
the `respondWith` promise, the cache-storage state after every spawned task
has settled, the number of network fetches issued, and the number of trim
passes triggered. -/
structure FetchResult where
  result : HandlerResult
  state : CacheStorage
  fetchCalls : Nat
  trimPasses : Nat
deriving DecidableEq, Repr

/-- Fire-and-forget `caches.open(RUNTIME_CACHE).then(c => c.put(u, r))`. -/
def putRuntime (s : CacheStorage) (u : Url) (r : Response) : CacheStorage :=
  let s1 := s.openPart RUNTIME_CACHE
  s1.set RUNTIME_CACHE ((s1.get RUNTIME_CACHE).put u r.clone)

/-- The document (navigation) branch: preload first, then network-first with
a 3000 ms timeout, then the cached exact match, then the cached root
document. A rejecting preload promise is awaited outside any try/catch, so
it rejects the whole handler. -/
def handleDocument (s : CacheStorage) (net : Net) (preload : Preload)
    (req : Request) : FetchResult :=
  match preload with
  | Preload.rejecting =>
      { result := HandlerResult.rejected, state := s, fetchCalls := 0, trimPasses := 0 }
  | Preload.withResponse r =>
      { result := HandlerResult.response r, state := putRuntime s req.url r,
        fetchCalls := 0, trimPasses := 0 }
  | Preload.noPreload =>
      match fromNetwork net req.url 3000 with
      | Option.some r =>
          { result := HandlerResult.response r, state := putRuntime s req.url r,
            fetchCalls := 1, trimPasses := 0 }
      | Option.none =>
          match s.matchAll req.url with
          | Option.some c =>
              { result := HandlerResult.response c, state := s,
                fetchCalls := 1, trimPasses := 0 }
          | Option.none =>
              match s.matchAll (resolveUrl req.url.origin "/index.html") with
              | Option.some c =>
                  { result := HandlerResult.response c, state := s,
                    fetchCalls := 1, trimPasses := 0 }
              | Option.none =>
                  { result := HandlerResult.noResponse, state := s,
                    fetchCalls := 1, trimPasses := 0 }

/-- The stale-while-revalidate branch for styles and scripts: serve the
cached match when present (without consulting the network outcome); fetch
concurrently, and on success store the fresh response and trim; on network
failure the catch resolves with the (possibly absent) cached value. -/
def handleSWR (s : CacheStorage) (net : Net) (req : Request) : FetchResult :=
  let cached := s.matchAll req.url
  match net req.url with
  | Option.some (r, _) =>
      let s1 := trimCache (putRuntime s req.url r) RUNTIME_CACHE MAX_RUNTIME_ENTRIES
      match cached with
      | Option.some c =>
          { result := HandlerResult.response c, state := s1,
            fetchCalls := 1, trimPasses := 1 }
      | Option.none =>
          { result := HandlerResult.response r, state := s1,
            fetchCalls := 1, trimPasses := 1 }
  | Option.none =>
      match cached with
      | Option.some c =>
          { result := HandlerResult.response c, state := s,
            fetchCalls := 1, trimPasses := 0 }
      | Option.none =>
          { result := HandlerResult.noResponse, state := s,
            fetchCalls := 1, trimPasses := 0 }

/-- The cache-first branch for images and fonts: serve the cached match and
revalidate in the background (no trim, errors swallowed); on a miss, fetch,
store, trim and return the network response — a failed miss fetch rejects
the handler. -/
def handleImage (s : CacheStorage) (net : Net) (req : Request) : FetchResult :=
  match s.matchAll req.url with
  | Option.some c =>
      match net req.url with
      | Option.some (r, _) =>
          { result := HandlerResult.response c, state := putRuntime s req.url r,
            fetchCalls := 1, trimPasses := 0 }
      | Option.none =>
          { result := HandlerResult.response c, state := s,
            fetchCalls := 1, trimPasses := 0 }
  | Option.none =>
      match net req.url with
      | Option.some (r, _) =>
          { result := HandlerResult.response r,
            state := trimCache (putRuntime s req.url r) RUNTIME_CACHE MAX_RUNTIME_ENTRIES,
            fetchCalls := 1, trimPasses := 1 }
      | Option.none =>
          { result := HandlerResult.rejected, state := s,
            fetchCalls := 1, trimPasses := 0 }

/-- The default branch: cached match, else network; no storage side effect. -/
def handleDefault (s : CacheStorage) (net : Net) (req : Request) : FetchResult :=
  match s.matchAll req.url with
  | Option.some c =>
      { result := HandlerResult.response c, state := s, fetchCalls := 0, trimPasses := 0 }
  | Option.none =>
      match net req.url with
      | Option.some (r, _) =>
          { result := HandlerResult.response r, state := s, fetchCalls := 1, trimPasses := 0 }
      | Option.none =>
          { result := HandlerResult.rejected, state := s, fetchCalls := 1, trimPasses := 0 }

/-- The fetch-event listener: `none` means the handler returned without
calling `respondWith` (the request passes through to the network untouched
and no cache is read or written); `some` is the intercepted outcome. -/
def handleFetch (s : CacheStorage) (net : Net) (locationOrigin : String)
    (preload : Preload) (req : Request) : Option FetchResult :=
  if req.method ≠ "GET" then Option.none
  else if req.url.origin ≠ locationOrigin then Option.none
  else if req.mode = "navigate" ∨ req.destination = "document" then
    Option.some (handleDocument s net preload req)
  else if req.destination = "style" ∨ req.destination = "script" then
    Option.some (handleSWR s net req)
  else if req.destination = "image" ∨ req.destination = "font" then
    Option.some (handleImage s net req)
  else
    Option.some (handleDefault s net req)

/-- Run a sequence of fetch events (each with no preload), threading the
cache-storage state and accumulating the number of trim passes triggered. -/
def runFetches (s : CacheStorage) (net : Net) (locationOrigin : String)
    (reqs : List Request) : CacheStorage × Nat :=
  reqs.foldl
    (fun acc r =>
      match handleFetch acc.1 net locationOrigin Preload.noPreload r with
      | Option.some fr => (fr.state, acc.2 + fr.trimPasses)
      | Option.none => acc)
    (s, 0)

/-! Generic list lemmas used to reason about the fold-of-deletes patterns
in `trimCache` and `activate`. -/

theorem foldl_filter_eq_filter {α β : Type} [DecidableEq β] (f : α → β)
    (us : List β) (l : List α) :
    us.foldl (fun acc u => acc.filter (fun x => !decide (f x = u))) l
      = l.filter (fun x => !decide (f x ∈ us)) := by
  induction us generalizing l with
  | nil => simp
  | cons u us ih =>
    simp only [List.foldl_cons]
    rw [ih, List.filter_filter]
    apply List.filter_congr
    intro x _
    simp only [List.mem_cons, Bool.decide_or, Bool.not_or]
    rw [Bool.and_comm]

theorem filter_not_mem_take_eq_drop {α β : Type} [DecidableEq β] (f : α → β)
    (l : List α) : ∀ (k : Nat), (l.map f).Nodup →
      l.filter (fun x => !decide (f x ∈ (l.map f).take k)) = l.drop k := by
  induction l with
  | nil => intro k _; simp
  | cons x tl ih =>
    intro k h
    cases k with
    | zero => simp
    | succ j =>
      simp only [List.map_cons, List.nodup_cons] at h
      simp only [List.map_cons, List.take_succ_cons, List.drop_succ_cons,
        List.filter_cons]
      have hpredx : (!decide (f x ∈ f x :: (tl.map f).take j)) = false := by
        simp
      rw [hpredx]
      simp only [Bool.false_eq_true, if_false]
      have hcongr : tl.filter (fun y => !decide (f y ∈ f x :: (tl.map f).take j))
          = tl.filter (fun y => !decide (f y ∈ (tl.map f).take j)) := by
        apply List.filter_congr
        intro y hy
        have hne : f y ≠ f x := fun hEq => h.1 (hEq ▸ List.mem_map_of_mem f hy)
        simp [List.mem_cons, hne]
      rw [hcongr, ih j h.2]

theorem find?_filter_of_imp {α : Type} (p q : α → Bool) (l : List α)
    (h : ∀ x, p x = true → q x = true) :
    (l.filter q).find? p = l.find? p := by
  induction l with
  | nil => rfl
  | cons x tl ih =>
    by_cases hq : q x = true
    · cases hp : p x with
      | true => simp [List.filter_cons, hq, List.find?_cons, hp]
      | false => simp [List.filter_cons, hq, List.find?_cons, hp, ih]
    · have hp : p x = false := by
        cases hpx : p x with
        | true => exact absurd (h x hpx) hq
        | false => rfl
      simp [List.filter_cons, hq, List.find?_cons, hp, ih]

theorem map_filter_comp {α β : Type} (f : α → β) (g : β → Bool) (l : List α) :
    (l.filter (fun x => g (f x))).map f = (l.map f).filter g := by
  induction l with
  | nil => rfl
  | cons x tl ih =>
    cases hg : g (f x) with
    | true => simp [List.filter_cons, hg, ih]
    | false => simp [List.filter_cons, hg, ih]

/-! Cache-storage plumbing lemmas. -/

theorem get_openPart (s : CacheStorage) (n m : String) :
    (s.openPart n).get m = s.get m := by
  unfold CacheStorage.openPart
  split
  · rfl
  · unfold CacheStorage.get
    rw [List.find?_append]
    cases hf : s.find? (fun e => decide (e.1 = m)) with
    | some e => simp
    | none =>
      by_cases hm : n = m
      · subst hm; simp [List.find?]
      · simp [List.find?, hm]

theorem mem_names_openPart (s : CacheStorage) (n : String) :
    n ∈ (s.openPart n).names := by
  unfold CacheStorage.openPart
  split
  · rename_i h
    obtain ⟨e, he, hee⟩ := List.any_eq_true.mp h
    exact List.mem_map.mpr ⟨e, he, of_decide_eq_true hee⟩
  · unfold CacheStorage.names
    simp

theorem get_eq_nil_of_not_mem (s : CacheStorage) (n : String)
    (h : n ∉ s.names) : s.get n = [] := by
  unfold CacheStorage.get
  have : s.find? (fun e => decide (e.1 = n)) = Option.none := by
    rw [List.find?_eq_none]
    intro e he hdec
    exact h (List.mem_map.mpr ⟨e, he, of_decide_eq_true hdec⟩)
  rw [this]
  rfl

theorem get_set_self (s : CacheStorage) (n : String) (c : Cache)
    (h : n ∈ s.names) : (s.set n c).get n = c := by
  induction s with
  | nil => simp [CacheStorage.names] at h
  | cons e tl ih =>
    unfold CacheStorage.set CacheStorage.get at ih ⊢
    simp only [List.map_cons, List.find?_cons]
    by_cases he : e.1 = n
    · rw [if_pos he]
      simp [he]
    · rw [if_neg he]
      have h' : n ∈ CacheStorage.names tl := by
        rcases List.mem_cons.mp h with h1 | h1
        · exact absurd h1.symm he
        · exact h1
      simp only [decide_eq_false he]
      exact ih h'

theorem get_set_ne (s : CacheStorage) (n m : String) (c : Cache)
    (h : m ≠ n) : (s.set n c).get m = s.get m := by
  induction s with
  | nil => rfl
  | cons e tl ih =>
    unfold CacheStorage.set CacheStorage.get at ih ⊢
    simp only [List.map_cons, List.find?_cons]
    by_cases he : e.1 = n
    · rw [if_pos he]
      have hne : ¬ ((e.1 : String) = m) := by
        rw [he]; exact fun hh => h hh.symm
      simp only [decide_eq_false hne]
      exact ih
    · rw [if_neg he]
      by_cases hem : e.1 = m
      · simp [hem]
      · simp only [decide_eq_false hem]
        exact ih

theorem openPart_of_mem (s : CacheStorage) (n : String)
    (h : n ∈ s.names) : s.openPart n = s := by
  unfold CacheStorage.openPart
  rw [if_pos]
  obtain ⟨e, he, hee⟩ := List.mem_map.mp h
  exact List.any_eq_true.mpr ⟨e, he, decide_eq_true hee⟩

/-! Lemmas about `trimCache`, `Cache.put` and `putRuntime`. -/

theorem get_trimCache (s : CacheStorage) (n : String) (m : Nat) :
    (trimCache s n m).get n =
      (if (s.get n).length > m then
        (s.get n).filter
          (fun e => !decide (e.1 ∈ (s.get n).keysList.take ((s.get n).length - m)))
      else (s.get n)) := by
  unfold trimCache Cache.deleteReq
  simp only [Cache.keysList, List.length_map, get_openPart]
  by_cases hlen : (s.get n).length > m
  · rw [if_pos hlen, if_pos hlen]
    rw [get_set_self _ _ _ (mem_names_openPart s n)]
    rw [foldl_filter_eq_filter Prod.fst]
  · rw [if_neg hlen, if_neg hlen]
    exact get_openPart s n n

theorem get_trimCache_other (s : CacheStorage) (n n' : String) (m : Nat)
    (h : n' ≠ n) : (trimCache s n m).get n' = s.get n' := by
  unfold trimCache Cache.deleteReq
  simp only [Cache.keysList, List.length_map]
  by_cases hlen : ((s.openPart n).get n).length > m
  · rw [if_pos (by simpa [get_openPart] using hlen)]
    rw [get_set_ne _ _ _ _ h, get_openPart]
  · rw [if_neg (by simpa [get_openPart] using hlen)]
    exact get_openPart s n n'

theorem get_trimCache_eq_drop (s : CacheStorage)
    (h : ((s.get RUNTIME_CACHE).map Prod.fst).Nodup) :
    (trimCache s RUNTIME_CACHE MAX_RUNTIME_ENTRIES).get RUNTIME_CACHE
      = (s.get RUNTIME_CACHE).drop
          ((s.get RUNTIME_CACHE).length - MAX_RUNTIME_ENTRIES) := by
  rw [get_trimCache]
  by_cases hlen : (s.get RUNTIME_CACHE).length > MAX_RUNTIME_ENTRIES
  · rw [if_pos hlen]
    exact filter_not_mem_take_eq_drop Prod.fst (s.get RUNTIME_CACHE) _ h
  · rw [if_neg hlen]
    have : (s.get RUNTIME_CACHE).length - MAX_RUNTIME_ENTRIES = 0 := by omega
    rw [this, List.drop_zero]

theorem matchReq_put_self (c : Cache) (k : Url) (v : Response) :
    (c.put k v).matchReq k = Option.some v := by
  unfold Cache.put Cache.matchReq
  rw [List.find?_append]
  have h1 : (c.filter (fun e => !decide (e.1 = k))).find?
      (fun e => decide (e.1 = k)) = Option.none := by
    rw [List.find?_eq_none]
    intro x hx
    have hpred := (List.mem_filter.mp hx).2
    simp only [Bool.not_eq_eq_eq_not, Bool.not_true, decide_eq_false_iff_not] at hpred
    simp [hpred]
  rw [h1]
  simp [List.find?_cons]

theorem length_put (c : Cache) (k : Url) (v : Response) :
    (c.put k v).length = (c.filter (fun e => !decide (e.1 = k))).length + 1 := by
  unfold Cache.put
  simp

theorem get_putRuntime (s : CacheStorage) (u : Url) (r : Response) :
    (putRuntime s u r).get RUNTIME_CACHE = (s.get RUNTIME_CACHE).put u r := by
  unfold putRuntime
  rw [get_set_self _ _ _ (mem_names_openPart s RUNTIME_CACHE), get_openPart]
  rfl

theorem get_putRuntime_other (s : CacheStorage) (u : Url) (r : Response)
    (n : String) (h : n ≠ RUNTIME_CACHE) :
    (putRuntime s u r).get n = s.get n := by
  unfold putRuntime
  rw [get_set_ne _ _ _ _ h, get_openPart]

theorem matchReq_runtime_after_put_trim (s : CacheStorage) (u : Url) (r : Response) :
    ((trimCache (putRuntime s u r) RUNTIME_CACHE MAX_RUNTIME_ENTRIES).get
      RUNTIME_CACHE).matchReq u = Option.some r := by
  rw [get_trimCache, get_putRuntime]
  set c := s.get RUNTIME_CACHE with hc
  by_cases hlen : (c.put u r).length > MAX_RUNTIME_ENTRIES
  · rw [if_pos hlen]
    -- the new entry sits at the very end; the deleted keys are all drawn
    -- from the older entries, whose keys differ from u
    unfold Cache.put Cache.keysList
    set noK := c.filter (fun e => !decide (e.1 = u)) with hnoK
    have hkeys : ((noK ++ [(u, r)]).map Prod.fst)
        = noK.map Prod.fst ++ [u] := by simp
    have hj : (noK ++ [(u, r)]).length - MAX_RUNTIME_ENTRIES
        ≤ (noK.map Prod.fst).length := by
      simp only [List.length_append, List.length_map, List.length_cons,
        List.length_nil, MAX_RUNTIME_ENTRIES]
      omega
    rw [hkeys, List.take_append_of_le_length hj]
    set T := (noK.map Prod.fst).take ((noK ++ [(u, r)]).length - MAX_RUNTIME_ENTRIES)
      with hT
    have hkT : u ∉ T := by
      intro hmem
      have hsub : u ∈ noK.map Prod.fst := List.mem_of_mem_take hmem
      obtain ⟨e, he, hfst⟩ := List.mem_map.mp hsub
      have := (List.mem_filter.mp he).2
      simp only [Bool.not_eq_eq_eq_not, Bool.not_true, decide_eq_false_iff_not] at this
      exact this (by rw [hfst])
    rw [List.filter_append]
    unfold Cache.matchReq
    rw [List.find?_append]
    have hleft : ((noK.filter (fun e => !decide (e.1 ∈ T))).find?
        (fun e => decide (e.1 = u))) = Option.none := by
      rw [List.find?_eq_none]
      intro x hx
      have hmem := (List.mem_filter.mp hx).1
      have := (List.mem_filter.mp hmem).2
      simp only [Bool.not_eq_eq_eq_not, Bool.not_true, decide_eq_false_iff_not] at this
      simp [this]
    rw [hleft]
    simp [List.filter_cons, hkT, List.find?_cons]
  · rw [if_neg hlen]
    exact matchReq_put_self c u r

/-! Lemmas about `activate`. -/

theorem activate_eq_filter (s : CacheStorage) :
    activate s = s.filter
      (fun e => decide (e.1 = CORE_CACHE ∨ e.1 = RUNTIME_CACHE)) := by
  unfold activate CacheStorage.deletePart
  rw [foldl_filter_eq_filter Prod.fst]
  apply List.filter_congr
  intro e he
  have hmem : e.1 ∈ s.names := List.mem_map_of_mem Prod.fst he
  by_cases hc : e.1 = CORE_CACHE ∨ e.1 = RUNTIME_CACHE
  · simp [List.mem_filter, hc]
  · have h1 := not_or.mp hc
    simp [List.mem_filter, hc, CacheStorage.names]
    exact ⟨⟨e.2, by simpa using he⟩, h1.1, h1.2⟩

/-! Lemmas about `fetchAll` and `install`. -/

theorem fetchAll_eq_some (net : Net) (resp : Url → Response) (tf : Url → Nat)
    (urls : List Url) (h : ∀ u ∈ urls, net u = Option.some (resp u, tf u)) :
    fetchAll net urls = Option.some (urls.map resp) := by
  induction urls with
  | nil => rfl
  | cons u rest ih =>
    unfold fetchAll
    rw [h u (List.mem_cons_self u rest),
      ih (fun x hx => h x (List.mem_cons_of_mem u hx))]
    simp

theorem fetchAll_eq_none (net : Net) (urls : List Url) (u : Url)
    (hu : u ∈ urls) (h : net u = Option.none) :
    fetchAll net urls = Option.none := by
  induction urls with
  | nil => cases hu
  | cons x rest ih =>
    unfold fetchAll
    rcases List.mem_cons.mp hu with h1 | h2
    · subst h1
      rw [h]
    · rw [ih h2]
      cases hx : net x with
      | none => rfl
      | some p => cases p; rfl

theorem foldl_put_fresh (pairs : List (Url × Response)) :
    ∀ (acc : Cache), (pairs.map Prod.fst).Nodup →
      (∀ e ∈ acc, e.1 ∉ pairs.map Prod.fst) →
      pairs.foldl (fun c e => c.put e.1 e.2) acc = acc ++ pairs := by
  induction pairs with
  | nil => intro acc _ _; simp
  | cons p tl ih =>
    intro acc hnd hfr
    simp only [List.foldl_cons]
    have hput : acc.put p.1 p.2 = acc ++ [p] := by
      unfold Cache.put
      have hfil : acc.filter (fun e => !decide (e.1 = p.1)) = acc := by
        rw [List.filter_eq_self]
        intro e he
        have : e.1 ≠ p.1 := by
          intro hEq
          exact hfr e he (by simp [hEq])
        simp [this]
      rw [hfil]
    rw [hput]
    have hnd' : (tl.map Prod.fst).Nodup := by
      simp only [List.map_cons, List.nodup_cons] at hnd
      exact hnd.2
    have hhead : p.1 ∉ tl.map Prod.fst := by
      simp only [List.map_cons, List.nodup_cons] at hnd
      exact hnd.1
    rw [ih (acc ++ [p]) hnd' ?fresh]
    · simp
    case fresh =>
      intro e he
      rcases List.mem_append.mp he with h1 | h2
      · exact fun hmem => hfr e h1 (by simp [hmem])
      · have : e = p := by simpa using h2
        subst this
        exact hhead

theorem nodup_core_assets : CORE_ASSETS.Nodup := by decide

theorem resolveUrl_injective (origin : String) :
    Function.Injective (resolveUrl origin) := by
  intro a b h
  injection h

theorem install_success (origin : String) (s : CacheStorage) (net : Net)
    (resp : Url → Response) (tf : Url → Nat)
    (hnet : ∀ u ∈ CORE_ASSETS.map (resolveUrl origin),
      net u = Option.some (resp u, tf u))
    (hfresh : CORE_CACHE ∉ s.names) :
    install origin s net =
      (true, (s.openPart CORE_CACHE).set CORE_CACHE
        ((CORE_ASSETS.map (resolveUrl origin)).map (fun u => (u, resp u)))) := by
  unfold install
  simp only [fetchAll_eq_some net resp tf _ hnet]
  have hget : (s.openPart CORE_CACHE).get CORE_CACHE = [] := by
    rw [get_openPart]
    exact get_eq_nil_of_not_mem s CORE_CACHE hfresh
  rw [hget]
  have hzip : (CORE_ASSETS.map (resolveUrl origin)).zip
      ((CORE_ASSETS.map (resolveUrl origin)).map resp)
      = (CORE_ASSETS.map (resolveUrl origin)).map (fun u => (u, resp u)) := by
    have := List.zip_map' (fun u => u) resp (CORE_ASSETS.map (resolveUrl origin))
    simpa using this
  rw [hzip]
  have hnd : (((CORE_ASSETS.map (resolveUrl origin)).map
      (fun u => (u, resp u))).map Prod.fst).Nodup := by
    rw [List.map_map]
    have : (Prod.fst ∘ fun u => (u, resp u)) = fun u => u := rfl
    rw [this]
    simp only [List.map_id']
    exact (nodup_core_assets).map (resolveUrl_injective origin)
  rw [foldl_put_fresh _ [] hnd (by intro e he; cases he)]
  simp

theorem install_failure (origin : String) (s : CacheStorage) (net : Net)
    (a : String) (ha : a ∈ CORE_ASSETS)
    (hfail : net (resolveUrl origin a) = Option.none) :
    install origin s net = (false, s.openPart CORE_CACHE) := by
  unfold install
  rw [fetchAll_eq_none net _ (resolveUrl origin a)
    (List.mem_map_of_mem (resolveUrl origin) ha) hfail]

/-! The cache-storage state right after a successful install on a pristine
browser profile, and cache lookups against it. -/

theorem install_state_pristine (origin : String) (net : Net)
    (resp : Url → Response) (tf : Url → Nat)
    (hnet : ∀ u ∈ CORE_ASSETS.map (resolveUrl origin),
      net u = Option.some (resp u, tf u)) :
    (install origin [] net).2
      = [(CORE_CACHE,
          (CORE_ASSETS.map (resolveUrl origin)).map (fun u => (u, resp u)))] := by
  rw [install_success origin [] net resp tf hnet (by simp [CacheStorage.names])]
  simp [CacheStorage.openPart, CacheStorage.set]

theorem matchAll_single (n : String) (c : Cache) (k : Url) :
    CacheStorage.matchAll [(n, c)] k = c.matchReq k := by
  unfold CacheStorage.matchAll
  rw [List.findSome?_cons]
  cases h : c.matchReq k with
  | some r => simp
  | none => simp [List.findSome?]

theorem find?_eq_self {α : Type} [DecidableEq α] (l : List α) (a : α)
    (ha : a ∈ l) : l.find? (fun x => decide (x = a)) = Option.some a := by
  induction l with
  | nil => cases ha
  | cons x tl ih =>
    by_cases hx : x = a
    · subst hx; simp [List.find?_cons]
    · rcases List.mem_cons.mp ha with h1 | h2
      · exact absurd h1.symm hx
      · simp [List.find?_cons, hx, ih h2]

theorem matchReq_coreList_asset (origin a : String) (resp : Url → Response)
    (ha : a ∈ CORE_ASSETS) :
    Cache.matchReq
      ((CORE_ASSETS.map (resolveUrl origin)).map (fun u => (u, resp u)))
      (resolveUrl origin a)
      = Option.some (resp (resolveUrl origin a)) := by
  unfold Cache.matchReq
  rw [List.map_map, List.find?_map]
  have hpred : ((fun e => decide (e.1 = resolveUrl origin a))
        ∘ ((fun u => (u, resp u)) ∘ resolveUrl origin))
      = fun x => decide (x = a) := by
    funext x
    simp only [Function.comp]
    rw [decide_eq_decide]
    exact ⟨fun h => resolveUrl_injective origin h, fun h => by rw [h]⟩
  rw [hpred, find?_eq_self CORE_ASSETS a ha]
  rfl

theorem matchReq_coreList_not_mem (origin p : String) (resp : Url → Response)
    (hp : p ∉ CORE_ASSETS) :
    Cache.matchReq
      ((CORE_ASSETS.map (resolveUrl origin)).map (fun u => (u, resp u)))
      (resolveUrl origin p)
      = Option.none := by
  unfold Cache.matchReq
  have : ((CORE_ASSETS.map (resolveUrl origin)).map (fun u => (u, resp u))).find?
      (fun e => decide (e.1 = resolveUrl origin p)) = Option.none := by
    rw [List.find?_eq_none]
    intro e he hdec
    obtain ⟨u, hu, heu⟩ := List.mem_map.mp he
    obtain ⟨a, ha, hau⟩ := List.mem_map.mp hu
    have h1 : e.1 = resolveUrl origin p := of_decide_eq_true hdec
    have h2 : u = resolveUrl origin p := by rw [← heu] at h1; exact h1
    have : a = p := resolveUrl_injective origin (by rw [hau, h2])
    exact hp (this ▸ ha)
  rw [this]
  rfl

/-! Routing lemmas: which branch of the fetch listener a request reaches. -/

theorem handleFetch_document (s : CacheStorage) (net : Net)
    (locationOrigin : String) (preload : Preload) (req : Request)
    (hget : req.method = "GET") (horig : req.url.origin = locationOrigin)
    (hdoc : req.mode = "navigate" ∨ req.destination = "document") :
    handleFetch s net locationOrigin preload req
      = Option.some (handleDocument s net preload req) := by
  unfold handleFetch
  rw [if_neg (by simp [hget]), if_neg (by simp [horig]), if_pos hdoc]

theorem handleFetch_swr (s : CacheStorage) (net : Net)
    (locationOrigin : String) (preload : Preload) (req : Request)
    (hget : req.method = "GET") (horig : req.url.origin = locationOrigin)
    (hmode : req.mode ≠ "navigate")
    (hdest : req.destination = "style" ∨ req.destination = "script") :
    handleFetch s net locationOrigin preload req
      = Option.some (handleSWR s net req) := by
  unfold handleFetch
  have hnotdoc : ¬(req.mode = "navigate" ∨ req.destination = "document") := by
    rintro (h | h)
    · exact hmode h
    · rcases hdest with h1 | h1 <;> rw [h1] at h <;> exact absurd h (by decide)
  rw [if_neg (by simp [hget]), if_neg (by simp [horig]), if_neg hnotdoc,
    if_pos hdest]

theorem handleFetch_image (s : CacheStorage) (net : Net)
    (locationOrigin : String) (preload : Preload) (req : Request)
    (hget : req.method = "GET") (horig : req.url.origin = locationOrigin)
    (hmode : req.mode ≠ "navigate")
    (hdest : req.destination = "image" ∨ req.destination = "font") :
    handleFetch s net locationOrigin preload req
      = Option.some (handleImage s net req) := by
  unfold handleFetch
  have hnotdoc : ¬(req.mode = "navigate" ∨ req.destination = "document") := by
    rintro (h | h)
    · exact hmode h
    · rcases hdest with h1 | h1 <;> rw [h1] at h <;> exact absurd h (by decide)
  have hnotswr : ¬(req.destination = "style" ∨ req.destination = "script") := by
    rintro (h | h) <;> rcases hdest with h1 | h1 <;> rw [h1] at h <;>
      exact absurd h (by decide)
  rw [if_neg (by simp [hget]), if_neg (by simp [horig]), if_neg hnotdoc,
    if_neg hnotswr, if_pos hdest]

/-! Claim theorems. -/

/-- C8: for every non-GET request and every cross-origin GET request, the
fetch listener does not intercept: it returns without calling `respondWith`
(modelled as `Option.none`) and performs no cache read or write, so the
response equals what an unmodified network request would produce. -/
theorem C8_passthrough_non_get_or_cross_origin (s : CacheStorage) (net : Net)
    (locationOrigin : String) (preload : Preload) (req : Request)
    (h : req.method ≠ "GET" ∨ req.url.origin ≠ locationOrigin) :
    handleFetch s net locationOrigin preload req = Option.none := by
  unfold handleFetch
  rcases h with h | h
  · rw [if_pos h]
  · by_cases hm : req.method ≠ "GET"
    · rw [if_pos hm]
    · rw [if_neg hm, if_pos h]

/-- C8 witness: a same-origin POST request and a cross-origin GET request
both pass through. -/
theorem C8_passthrough_witness :
    ((("POST" : String) ≠ "GET" ∨ ("https://site.test" : String) ≠ "https://site.test")
      ∧ handleFetch [] (fun _ => Option.none) "https://site.test" Preload.noPreload
          { method := "POST", url := { origin := "https://site.test", path := "/api" },
            mode := "cors", destination := "" } = Option.none)
    ∧ ((("GET" : String) ≠ "GET" ∨ ("https://cdn.example" : String) ≠ "https://site.test")
      ∧ handleFetch [] (fun _ => Option.none) "https://site.test" Preload.noPreload
          { method := "GET", url := { origin := "https://cdn.example", path := "/lib.js" },
            mode := "cors", destination := "script" } = Option.none) :=
  ⟨⟨Or.inl (by decide),
    C8_passthrough_non_get_or_cross_origin _ _ _ _ _ (Or.inl (by decide))⟩,
   ⟨Or.inr (by decide),
    C8_passthrough_non_get_or_cross_origin _ _ _ _ _ (Or.inr (by decide))⟩⟩

/-- C6: activation deletes every cache partition whose name is neither the
current core name nor the current runtime name, leaves the current core and
runtime partitions and their contents untouched, and afterwards exactly the
current core and runtime partitions (of those that existed) remain. -/
theorem C6_activate_purges_old_generations (s : CacheStorage) :
    (activate s).names = s.names.filter
        (fun n => decide (n = CORE_CACHE ∨ n = RUNTIME_CACHE))
    ∧ (activate s).get CORE_CACHE = s.get CORE_CACHE
    ∧ (activate s).get RUNTIME_CACHE = s.get RUNTIME_CACHE
    ∧ ∀ e ∈ activate s, (e.1 = CORE_CACHE ∨ e.1 = RUNTIME_CACHE) ∧ e ∈ s := by
  rw [activate_eq_filter]
  refine ⟨?_, ?_, ?_, ?_⟩
  · unfold CacheStorage.names
    exact map_filter_comp Prod.fst
      (fun n => decide (n = CORE_CACHE ∨ n = RUNTIME_CACHE)) s
  · unfold CacheStorage.get
    rw [find?_filter_of_imp]
    intro x hx
    have hx' : x.1 = CORE_CACHE := of_decide_eq_true hx
    simp [hx']
  · unfold CacheStorage.get
    rw [find?_filter_of_imp]
    intro x hx
    have hx' : x.1 = RUNTIME_CACHE := of_decide_eq_true hx
    simp [hx']
  · intro e he
    have hm := List.mem_filter.mp he
    exact ⟨of_decide_eq_true hm.2, hm.1⟩

/-- C7: for an image or font request with no cached entry, the handler
performs exactly one network fetch; the network response is returned to the
page and stored (as a clone) in the runtime partition, followed by a trim
pass. -/
theorem C7_image_miss_single_fetch_store_return (s : CacheStorage) (net : Net)
    (locationOrigin : String) (preload : Preload) (req : Request)
    (r : Response) (t : Nat)
    (hget : req.method = "GET") (horig : req.url.origin = locationOrigin)
    (hmode : req.mode ≠ "navigate")
    (hdest : req.destination = "image" ∨ req.destination = "font")
    (hmiss : s.matchAll req.url = Option.none)
    (hnet : net req.url = Option.some (r, t)) :
    handleFetch s net locationOrigin preload req = Option.some
      { result := HandlerResult.response r,
        state := trimCache (putRuntime s req.url r) RUNTIME_CACHE MAX_RUNTIME_ENTRIES,
        fetchCalls := 1, trimPasses := 1 }
    ∧ ((trimCache (putRuntime s req.url r) RUNTIME_CACHE
        MAX_RUNTIME_ENTRIES).get RUNTIME_CACHE).matchReq req.url
        = Option.some r := by
  constructor
  · rw [handleFetch_image s net locationOrigin preload req hget horig hmode hdest]
    unfold handleImage
    rw [hmiss, hnet]
  · exact matchReq_runtime_after_put_trim s req.url r

/-- C7 witness: a concrete image request on an empty cache storage. -/
theorem C7_image_miss_witness :
    handleFetch [] (fun _ => Option.some (⟨7⟩, 40)) "https://site.test"
        Preload.noPreload
        { method := "GET", url := { origin := "https://site.test", path := "/images/a.png" },
          mode := "no-cors", destination := "image" }
      = Option.some
        { result := HandlerResult.response ⟨7⟩,
          state := trimCache
            (putRuntime [] { origin := "https://site.test", path := "/images/a.png" } ⟨7⟩)
            RUNTIME_CACHE MAX_RUNTIME_ENTRIES,
          fetchCalls := 1, trimPasses := 1 }
    ∧ ((trimCache
          (putRuntime [] { origin := "https://site.test", path := "/images/a.png" } ⟨7⟩)
          RUNTIME_CACHE MAX_RUNTIME_ENTRIES).get RUNTIME_CACHE).matchReq
        { origin := "https://site.test", path := "/images/a.png" }
        = Option.some ⟨7⟩ :=
  C7_image_miss_single_fetch_store_return [] (fun _ => Option.some (⟨7⟩, 40))
    "https://site.test" Preload.noPreload
    { method := "GET", url := { origin := "https://site.test", path := "/images/a.png" },
      mode := "no-cors", destination := "image" } ⟨7⟩ 40
    (by decide) (by decide) (by decide) (Or.inl (by decide)) (by decide) (by decide)

/-- C5: for a style/script request with a cached entry, the served response
is the cached one, computed without awaiting the network (the same result for
every network outcome); once the spawned tasks settle after a successful
network fetch, the runtime partition holds the network's latest response for
that URL; with no cached entry the handler awaits and returns the network
response. -/
theorem C5_swr_serves_stale_and_revalidates (s : CacheStorage) (net : Net)
    (locationOrigin : String) (preload : Preload) (req : Request)
    (hget : req.method = "GET") (horig : req.url.origin = locationOrigin)
    (hmode : req.mode ≠ "navigate")
    (hdest : req.destination = "style" ∨ req.destination = "script") :
    (∀ c, s.matchAll req.url = Option.some c →
      (handleFetch s net locationOrigin preload req).map FetchResult.result
        = Option.some (HandlerResult.response c))
    ∧ (∀ r t, net req.url = Option.some (r, t) →
      (handleFetch s net locationOrigin preload req).map
          (fun fr => (fr.state.get RUNTIME_CACHE).matchReq req.url)
        = Option.some (Option.some r))
    ∧ (∀ r t, s.matchAll req.url = Option.none →
      net req.url = Option.some (r, t) →
      (handleFetch s net locationOrigin preload req).map FetchResult.result
        = Option.some (HandlerResult.response r)) := by
  rw [handleFetch_swr s net locationOrigin preload req hget horig hmode hdest]
  refine ⟨?_, ?_, ?_⟩
  · intro c hc
    unfold handleSWR
    rw [hc]
    cases hnet : net req.url with
    | some p => cases p; simp
    | none => simp
  · intro r t hnet
    unfold handleSWR
    rw [hnet]
    cases hc : s.matchAll req.url with
    | some c => simpa using matchReq_runtime_after_put_trim s req.url r
    | none => simpa using matchReq_runtime_after_put_trim s req.url r
  · intro r t hc hnet
    unfold handleSWR
    rw [hnet, hc]
    simp

/-- C5 witness: a script request with a cached entry obtains the stale
response while the runtime partition ends up with the fresh one. -/
theorem C5_swr_witness :
    ((CacheStorage.matchAll [(RUNTIME_CACHE,
        [({ origin := "https://site.test", path := "/js/main.js" }, ⟨1⟩)])]
        { origin := "https://site.test", path := "/js/main.js" }
        = Option.some ⟨1⟩)
      → (handleFetch [(RUNTIME_CACHE,
          [({ origin := "https://site.test", path := "/js/main.js" }, ⟨1⟩)])]
          (fun _ => Option.some (⟨2⟩, 30)) "https://site.test" Preload.noPreload
          { method := "GET", url := { origin := "https://site.test", path := "/js/main.js" },
            mode := "no-cors", destination := "script" }).map FetchResult.result
        = Option.some (HandlerResult.response ⟨1⟩))
    ∧ ((handleFetch [(RUNTIME_CACHE,
          [({ origin := "https://site.test", path := "/js/main.js" }, ⟨1⟩)])]
          (fun _ => Option.some (⟨2⟩, 30)) "https://site.test" Preload.noPreload
          { method := "GET", url := { origin := "https://site.test", path := "/js/main.js" },
            mode := "no-cors", destination := "script" }).map
          (fun fr => (fr.state.get RUNTIME_CACHE).matchReq
            { origin := "https://site.test", path := "/js/main.js" })
        = Option.some (Option.some ⟨2⟩)) := by
  have h := C5_swr_serves_stale_and_revalidates
    [(RUNTIME_CACHE, [({ origin := "https://site.test", path := "/js/main.js" }, ⟨1⟩)])]
    (fun _ => Option.some (⟨2⟩, 30)) "https://site.test" Preload.noPreload
    { method := "GET", url := { origin := "https://site.test", path := "/js/main.js" },
      mode := "no-cors", destination := "script" }
    (by decide) (by decide) (by decide) (Or.inr (by decide))
  exact ⟨fun hc => h.1 ⟨1⟩ hc, h.2.1 ⟨2⟩ 30 (by decide)⟩

/-- C3 counterexample: for a style request with no cached entry and a failing
network fetch, the handler's promise resolves with an absent (undefined)
value — it is a resolved empty value, not the propagated fetch rejection the
claim describes. -/
theorem C3_counterexample :
    (handleFetch [] (fun _ => Option.none) "https://site.test" Preload.noPreload
        { method := "GET",
          url := { origin := "https://site.test", path := "/css/style.css" },
          mode := "no-cors", destination := "style" }).map FetchResult.result
      = Option.some HandlerResult.noResponse
    ∧ HandlerResult.noResponse ≠ HandlerResult.rejected := by
  exact ⟨by decide, by decide⟩

/-- C3 (amended): for a style/script request whose network fetch fails, if a
cached entry existed the already-served cached response stands with no
user-visible error and no state change; if no cached entry existed the
handler resolves with an absent (undefined) response — which the page
observes as a failed request — rather than propagating the rejection. -/
theorem C3_swr_network_failure (s : CacheStorage) (net : Net)
    (locationOrigin : String) (preload : Preload) (req : Request)
    (hget : req.method = "GET") (horig : req.url.origin = locationOrigin)
    (hmode : req.mode ≠ "navigate")
    (hdest : req.destination = "style" ∨ req.destination = "script")
    (hfail : net req.url = Option.none) :
    (∀ c, s.matchAll req.url = Option.some c →
      handleFetch s net locationOrigin preload req = Option.some
        { result := HandlerResult.response c, state := s,
          fetchCalls := 1, trimPasses := 0 })
    ∧ (s.matchAll req.url = Option.none →
      handleFetch s net locationOrigin preload req = Option.some
        { result := HandlerResult.noResponse, state := s,
          fetchCalls := 1, trimPasses := 0 }) := by
  rw [handleFetch_swr s net locationOrigin preload req hget horig hmode hdest]
  constructor
  · intro c hc
    unfold handleSWR
    rw [hfail, hc]
  · intro hc
    unfold handleSWR
    rw [hfail, hc]

/-- C3 witness: a style request failing over an empty cache resolves empty;
one with a cached entry keeps serving it. -/
theorem C3_swr_network_failure_witness :
    handleFetch [(RUNTIME_CACHE,
        [({ origin := "https://site.test", path := "/css/style.css" }, ⟨3⟩)])]
      (fun _ => Option.none) "https://site.test" Preload.noPreload
      { method := "GET",
        url := { origin := "https://site.test", path := "/css/style.css" },
        mode := "no-cors", destination := "style" }
      = Option.some
        { result := HandlerResult.response ⟨3⟩,
          state := [(RUNTIME_CACHE,
            [({ origin := "https://site.test", path := "/css/style.css" }, ⟨3⟩)])],
          fetchCalls := 1, trimPasses := 0 } :=
  (C3_swr_network_failure
    [(RUNTIME_CACHE, [({ origin := "https://site.test", path := "/css/style.css" }, ⟨3⟩)])]
    (fun _ => Option.none) "https://site.test" Preload.noPreload
    { method := "GET",
      url := { origin := "https://site.test", path := "/css/style.css" },
      mode := "no-cors", destination := "style" }
    (by decide) (by decide) (by decide) (Or.inl (by decide)) (by decide)).1
    ⟨3⟩ (by decide)

/-- C4 counterexample: seed the core partition by installing (every asset
answered by response 1), then store a fresh document response 2 for
"/about.html" in the runtime partition via a successful navigation; on a
later offline navigation to the same URL the served response is the core
partition's install-time copy (response 1), not the last-cached response for
that exact request (response 2), because the exact-match lookup searches
partitions in creation order and the core partition precedes the runtime
partition. -/
theorem C4_counterexample :
    (let s1 := (install "o" [] (fun _ => Option.some (⟨1⟩, 0))).2
     let req : Request :=
       { method := "GET", url := { origin := "o", path := "/about.html" },
         mode := "navigate", destination := "document" }
     let s2 := ((handleFetch s1 (fun _ => Option.some (⟨2⟩, 0)) "o"
       Preload.noPreload req).map FetchResult.state).getD []
     ((s2.get RUNTIME_CACHE).matchReq req.url = Option.some ⟨2⟩)
     ∧ ((handleFetch s2 (fun _ => Option.none) "o" Preload.noPreload req).map
          FetchResult.result = Option.some (HandlerResult.response ⟨1⟩))
     ∧ Response.mk 1 ≠ Response.mk 2) := by
  decide

/-- C4 (amended): for a document/navigation request with no preload
response: if the network responds within the 3000 ms timeout, the served
response is the network response and a clone of it is stored in the runtime
partition; on timeout or failure the served response is the first cached
match for the exact request across live partitions in creation order (which
may be the core partition's install-time copy rather than the runtime
partition's most recently stored one); if no partition has a match, the
served response is the cached root entry point "/index.html". -/
theorem C4_document_network_first (s : CacheStorage) (net : Net)
    (locationOrigin : String) (req : Request)
    (hget : req.method = "GET") (horig : req.url.origin = locationOrigin)
    (hdoc : req.mode = "navigate" ∨ req.destination = "document") :
    (∀ r t, net req.url = Option.some (r, t) → t < 3000 →
      handleFetch s net locationOrigin Preload.noPreload req = Option.some
        { result := HandlerResult.response r, state := putRuntime s req.url r,
          fetchCalls := 1, trimPasses := 0 }
      ∧ ((putRuntime s req.url r).get RUNTIME_CACHE).matchReq req.url
          = Option.some r)
    ∧ (fromNetwork net req.url 3000 = Option.none →
      ∀ c, s.matchAll req.url = Option.some c →
        handleFetch s net locationOrigin Preload.noPreload req = Option.some
          { result := HandlerResult.response c, state := s,
            fetchCalls := 1, trimPasses := 0 })
    ∧ (fromNetwork net req.url 3000 = Option.none →
      s.matchAll req.url = Option.none →
      ∀ c, s.matchAll (resolveUrl req.url.origin "/index.html") = Option.some c →
        handleFetch s net locationOrigin Preload.noPreload req = Option.some
          { result := HandlerResult.response c, state := s,
            fetchCalls := 1, trimPasses := 0 }) := by
  rw [handleFetch_document s net locationOrigin Preload.noPreload req hget horig hdoc]
  refine ⟨?_, ?_, ?_⟩
  · intro r t hnet ht
    have hfn : fromNetwork net req.url 3000 = Option.some r := by
      unfold fromNetwork
      rw [hnet]
      simp [ht]
    constructor
    · unfold handleDocument
      rw [hfn]
    · rw [get_putRuntime]
      exact matchReq_put_self _ _ _
  · intro hfn c hc
    unfold handleDocument
    rw [hfn, hc]
  · intro hfn hc c hidx
    unfold handleDocument
    rw [hfn, hc, hidx]

/-- C4 witness: a navigation answered by the network within the timeout is
served from the network and stored in the runtime partition. -/
theorem C4_document_network_first_witness :
    handleFetch [] (fun _ => Option.some (⟨9⟩, 100)) "https://site.test"
        Preload.noPreload
        { method := "GET", url := { origin := "https://site.test", path := "/a.html" },
          mode := "navigate", destination := "document" }
      = Option.some
        { result := HandlerResult.response ⟨9⟩,
          state := putRuntime []
            { origin := "https://site.test", path := "/a.html" } ⟨9⟩,
          fetchCalls := 1, trimPasses := 0 }
    ∧ ((putRuntime [] { origin := "https://site.test", path := "/a.html" }
        ⟨9⟩).get RUNTIME_CACHE).matchReq
        { origin := "https://site.test", path := "/a.html" }
        = Option.some ⟨9⟩ :=
  (C4_document_network_first [] (fun _ => Option.some (⟨9⟩, 100))
    "https://site.test"
    { method := "GET", url := { origin := "https://site.test", path := "/a.html" },
      mode := "navigate", destination := "document" }
    (by decide) (by decide) (Or.inl (by decide))).1 ⟨9⟩ 100 (by decide) (by decide)

/-- C9: for a document request whose network path fails, the fallback
lookups (exact match, then "/index.html") search across all live partitions:
right after a successful install on a pristine profile — when no runtime
partition exists — an offline navigation to a core path is served that
path's core entry, and one to any other path is served the core partition's
"/index.html" entry. -/
theorem C9_fallbacks_search_all_partitions (origin p : String)
    (net1 net2 : Net) (resp : Url → Response) (tf : Url → Nat)
    (s : CacheStorage) (hs : s = (install origin [] net1).2)
    (hnet1 : ∀ u ∈ CORE_ASSETS.map (resolveUrl origin),
      net1 u = Option.some (resp u, tf u))
    (hnet2 : net2 (resolveUrl origin p) = Option.none) :
    (p ∈ CORE_ASSETS →
      (handleFetch s net2 origin Preload.noPreload
        { method := "GET", url := resolveUrl origin p,
          mode := "navigate", destination := "document" }).map FetchResult.result
        = Option.some (HandlerResult.response (resp (resolveUrl origin p))))
    ∧ (p ∉ CORE_ASSETS →
      (handleFetch s net2 origin Preload.noPreload
        { method := "GET", url := resolveUrl origin p,
          mode := "navigate", destination := "document" }).map FetchResult.result
        = Option.some (HandlerResult.response (resp (resolveUrl origin "/index.html")))) := by
  subst hs
  rw [install_state_pristine origin net1 resp tf hnet1]
  rw [handleFetch_document
    [(CORE_CACHE, (CORE_ASSETS.map (resolveUrl origin)).map (fun u => (u, resp u)))]
    net2 origin Preload.noPreload
    { method := "GET", url := resolveUrl origin p,
      mode := "navigate", destination := "document" }
    rfl rfl (Or.inl rfl)]
  have hfn : fromNetwork net2 (resolveUrl origin p) 3000 = Option.none := by
    unfold fromNetwork
    rw [hnet2]
  constructor
  · intro hp
    unfold handleDocument
    dsimp only
    rw [hfn, matchAll_single, matchReq_coreList_asset origin p resp hp]
    rfl
  · intro hp
    unfold handleDocument
    dsimp only
    have hor : (resolveUrl origin p).origin = origin := rfl
    rw [hfn, matchAll_single, matchReq_coreList_not_mem origin p resp hp, hor,
      matchAll_single, matchReq_coreList_asset origin "/index.html" resp (by decide)]
    rfl

/-- C9 witness: after installing at origin "o" with every asset answered by
response 1, an offline navigation to the non-core path "/x.html" is served
the core partition's root document. -/
theorem C9_fallbacks_witness :
    ("/x.html" : String) ∉ CORE_ASSETS
    ∧ (handleFetch (install "o" [] (fun _ => Option.some (⟨1⟩, 0))).2
        (fun _ => Option.none) "o" Preload.noPreload
        { method := "GET", url := resolveUrl "o" "/x.html",
          mode := "navigate", destination := "document" }).map FetchResult.result
      = Option.some (HandlerResult.response ⟨1⟩) :=
  ⟨by decide,
   (C9_fallbacks_search_all_partitions "o" "/x.html"
      (fun _ => Option.some (⟨1⟩, 0)) (fun _ => Option.none)
      (fun _ => ⟨1⟩) (fun _ => 0) _ rfl (fun _ _ => rfl) rfl).2 (by decide)⟩

/-- C10, the code evaluated at the failing input: for a navigation request
whose preload promise rejects, the promise handed to `respondWith` rejects
outright — no network attempt, no cached match, no root-document fallback —
even though the network works and a cached root document exists. -/
theorem C10_preload_rejection_rejects_handler :
    handleFetch
      [(CORE_CACHE, [({ origin := "o", path := "/index.html" }, ⟨1⟩)])]
      (fun _ => Option.some (⟨2⟩, 0)) "o" Preload.rejecting
      { method := "GET", url := { origin := "o", path := "/page.html" },
        mode := "navigate", destination := "document" }
      = Option.some
        { result := HandlerResult.rejected,
          state := [(CORE_CACHE, [({ origin := "o", path := "/index.html" }, ⟨1⟩)])],
          fetchCalls := 0, trimPasses := 0 } := by
  decide

set_option maxRecDepth 8000 in
/-- C1 counterexample: a sequence of 121 successful document navigations to
distinct URLs writes 121 runtime-partition entries while triggering zero
trim passes (the document branch stores without trimming), so after every
triggered trim pass has (vacuously) settled the key count is 121 > 120. -/
theorem C1_counterexample :
    (let reqs : List Request := (List.range 121).map (fun i =>
       { method := "GET", url := { origin := "o", path := "/p" ++ Nat.repr i },
         mode := "navigate", destination := "document" })
     let out := runFetches [] (fun _ => Option.some (⟨1⟩, 0)) "o" reqs
     out.2 = 0 ∧ (out.1.get RUNTIME_CACHE).length = 121) := by
  decide

/-- C1 (amended): every trim pass on the runtime partition deletes exactly
the oldest-inserted entries — what survives is the suffix of the insertion
order, never the most recently inserted — and leaves at most 120 entries;
the bound therefore holds after any write that triggers a trim pass
(stale-while-revalidate stores and image/font miss stores). Document stores
and the image/font background revalidation trigger no trim pass, so write
sequences of those alone can leave the runtime partition above 120 entries. -/
theorem C1_trim_deletes_oldest_within_bound (s : CacheStorage)
    (h : ((s.get RUNTIME_CACHE).map Prod.fst).Nodup) :
    ((trimCache s RUNTIME_CACHE MAX_RUNTIME_ENTRIES).get RUNTIME_CACHE
        = (s.get RUNTIME_CACHE).drop
            ((s.get RUNTIME_CACHE).length - MAX_RUNTIME_ENTRIES))
    ∧ ((trimCache s RUNTIME_CACHE MAX_RUNTIME_ENTRIES).get RUNTIME_CACHE).length
        ≤ MAX_RUNTIME_ENTRIES := by
  refine ⟨get_trimCache_eq_drop s h, ?_⟩
  rw [get_trimCache_eq_drop s h, List.length_drop]
  omega

/-- C1 witness: a two-entry runtime partition with distinct keys is left
untouched by the trim pass (120 is not exceeded). -/
theorem C1_trim_witness :
    (((CacheStorage.get [(RUNTIME_CACHE,
        [({ origin := "o", path := "/a" }, ⟨1⟩),
         ({ origin := "o", path := "/b" }, ⟨2⟩)])]
        RUNTIME_CACHE).map Prod.fst).Nodup)
    ∧ ((trimCache [(RUNTIME_CACHE,
        [({ origin := "o", path := "/a" }, ⟨1⟩),
         ({ origin := "o", path := "/b" }, ⟨2⟩)])]
        RUNTIME_CACHE MAX_RUNTIME_ENTRIES).get RUNTIME_CACHE
        = (CacheStorage.get [(RUNTIME_CACHE,
        [({ origin := "o", path := "/a" }, ⟨1⟩),
         ({ origin := "o", path := "/b" }, ⟨2⟩)])]
          RUNTIME_CACHE).drop
          ((CacheStorage.get [(RUNTIME_CACHE,
        [({ origin := "o", path := "/a" }, ⟨1⟩),
         ({ origin := "o", path := "/b" }, ⟨2⟩)])]
            RUNTIME_CACHE).length - MAX_RUNTIME_ENTRIES))
    ∧ ((trimCache [(RUNTIME_CACHE,
        [({ origin := "o", path := "/a" }, ⟨1⟩),
         ({ origin := "o", path := "/b" }, ⟨2⟩)])]
        RUNTIME_CACHE MAX_RUNTIME_ENTRIES).get RUNTIME_CACHE).length
        ≤ MAX_RUNTIME_ENTRIES :=
  ⟨by decide,
   (C1_trim_deletes_oldest_within_bound
     [(RUNTIME_CACHE,
       [({ origin := "o", path := "/a" }, ⟨1⟩),
        ({ origin := "o", path := "/b" }, ⟨2⟩)])] (by decide)).1,
   (C1_trim_deletes_oldest_within_bound
     [(RUNTIME_CACHE,
       [({ origin := "o", path := "/a" }, ⟨1⟩),
        ({ origin := "o", path := "/b" }, ⟨2⟩)])] (by decide)).2⟩

/-- C2 counterexample: with the network failing on the single core asset
"/contact.html", the install attempt fails, yet afterwards a core partition
for the version does exist (created empty by the open step before the atomic
addAll) — contradicting the claim that no core partition is created or
retained. -/
theorem C2_counterexample :
    (install "o" []
        (fun u => if u.path = "/contact.html" then Option.none
          else Option.some (⟨1⟩, 0))).1 = false
    ∧ (install "o" []
        (fun u => if u.path = "/contact.html" then Option.none
          else Option.some (⟨1⟩, 0))).2.names = [CORE_CACHE] := by
  decide

/-- C2 (amended): if every core asset fetch succeeds, install succeeds and
the core partition contains exactly the listed core assets (in order, with
their fetched responses); if any single core asset fetch fails, the install
attempt fails (the new version does not activate) and the core partition —
created empty by the open step that precedes the atomic addAll — is retained
with no entries: partial population is never an end state. -/
theorem C2_install_all_or_nothing (origin : String) (s : CacheStorage)
    (net : Net) (hfresh : CORE_CACHE ∉ s.names) :
    (∀ (resp : Url → Response) (tf : Url → Nat),
      (∀ u ∈ CORE_ASSETS.map (resolveUrl origin),
        net u = Option.some (resp u, tf u)) →
      (install origin s net).1 = true
      ∧ (install origin s net).2.get CORE_CACHE
          = (CORE_ASSETS.map (resolveUrl origin)).map (fun u => (u, resp u)))
    ∧ (∀ a ∈ CORE_ASSETS, net (resolveUrl origin a) = Option.none →
      (install origin s net).1 = false
      ∧ (install origin s net).2.get CORE_CACHE = []
      ∧ CORE_CACHE ∈ (install origin s net).2.names) := by
  constructor
  · intro resp tf hnet
    rw [install_success origin s net resp tf hnet hfresh]
    exact ⟨rfl, get_set_self _ _ _ (mem_names_openPart s CORE_CACHE)⟩
  · intro a ha hfail
    rw [install_failure origin s net a ha hfail]
    refine ⟨rfl, ?_, ?_⟩
    · rw [get_openPart]
      exact get_eq_nil_of_not_mem s CORE_CACHE hfresh
    · exact mem_names_openPart s CORE_CACHE

/-- C2 witness: on a pristine profile with every asset reachable, install
succeeds and the core partition holds exactly the core assets. -/
theorem C2_install_witness :
    (install "o" [] (fun _ => Option.some (⟨1⟩, 0))).1 = true
    ∧ (install "o" [] (fun _ => Option.some (⟨1⟩, 0))).2.get CORE_CACHE
        = (CORE_ASSETS.map (resolveUrl "o")).map
            (fun u => (u, ((fun _ => (⟨1⟩ : Response)) u))) :=
  (C2_install_all_or_nothing "o" [] (fun _ => Option.some (⟨1⟩, 0))
    (by decide)).1 (fun _ => ⟨1⟩) (fun _ => 0) (fun _ _ => rfl)

end SW
